import Mathlib

/-!
# Verification of the hookedllm hook-dispatch core

A shallow embedding of the hookedllm interception layer:
the call model (`src/hookedllm/core/types.py`), the failure-isolating hook
executor (`src/hookedllm/core/executor.py`), the wrapped `create` call
protocol (`src/hookedllm/core/wrapper.py`), and the provider adapters
(`src/hookedllm/providers/openai.py`, `src/hookedllm/providers/anthropic.py`).

Modelling conventions:
* Exceptions are modelled by `Exn`, representing Python `Exception`
  instances — the error domain over which hooks, the provider call and
  normalization can fail in this embedding.  Process-exit and cancellation
  signals (`BaseException` outside `Exception`) are asynchronous control
  effects outside the scope of a sequential shallow embedding.  On this
  domain both `except Exception` (executor, adapters) and
  `except BaseException` (wrapper) catch every raised value.
* Side effects of hooks, the injected error handler and the logger are
  modelled as an observable event trace (`Event`); hook bodies are pure
  decision functions that either succeed or raise.
* Fallible code returns `Except Exn`; dictionaries are association lists.
-/

namespace HookedLLM

/-- A Python `Exception` instance.  `eid` models object identity (two
exceptions are the same object iff their `eid` and message agree);
`msg` models `str(e)`. -/
structure Exn where
  eid : Nat
  msg : String
deriving DecidableEq, Repr

/-- `Message` from `core/types.py`: one turn of an LLM conversation. -/
structure Message where
  role : String
  content : String
deriving DecidableEq, Repr

/-- A Python dict with string keys, as an association list (used for
`params`, `metadata` and normalized `usage` dictionaries). -/
abbrev StrDict := List (String × String)

/-- A usage dictionary with numeric token counts, as an association list. -/
abbrev UsageDict := List (String × Nat)

/-- `CallInput` from `core/types.py`: normalized input of one LLM call. -/
structure CallInput where
  model : String
  messages : List Message
  params : StrDict
  metadata : StrDict
deriving DecidableEq, Repr

/-- `CallOutput` from `core/types.py`: normalized output of one LLM call,
parametric in the provider response type `ρ`; `raw` holds the original
provider response object. -/
structure CallOutput (ρ : Type) where
  text : Option String
  raw : ρ
  usage : Option UsageDict
  finishReason : Option String
deriving DecidableEq, Repr

/-- `CallContext` from `core/types.py`: per-call context. -/
structure CallContext where
  callId : Nat
  parentId : Option Nat
  provider : String
  model : String
  route : String
  tags : List String
  startedAt : Nat
  metadata : StrDict
deriving DecidableEq, Repr

/-- `CallResult` from `core/types.py`: terminal snapshot of one call,
handed to finally hooks. -/
structure CallResult (ρ : Type) where
  input : CallInput
  output : Option (CallOutput ρ)
  context : CallContext
  error : Option Exn
  endedAt : Nat
  elapsedMs : Nat
deriving DecidableEq, Repr

/-- The `Rule` protocol (`core/protocols.py`, used by the executor):
a boolean predicate over `(CallInput, CallContext)`. -/
structure Rule where
  matchesFn : CallInput → CallContext → Bool

/-- A before hook: identity `hid`, Python `__name__`, and a body that
either succeeds or raises an exception. -/
structure BHook where
  hid : Nat
  name : String
  run : CallInput → CallContext → Option Exn

/-- An after hook; its body also receives the normalized output. -/
structure AHook (ρ : Type) where
  hid : Nat
  name : String
  run : CallInput → CallOutput ρ → CallContext → Option Exn

/-- An error hook; its body also receives the captured exception. -/
structure EHook where
  hid : Nat
  name : String
  run : CallInput → Exn → CallContext → Option Exn

/-- A finally hook; its body receives the complete `CallResult`. -/
structure FHook (ρ : Type) where
  hid : Nat
  name : String
  run : CallResult ρ → Option Exn

/-- An observable event of hook execution.  `invoke…` events record a hook
body being called (with the stage-specific argument of interest);
`handlerCall` records the injected error handler being called with the
raised exception and a descriptive label; `logError` records a call to the
optional injected logger. -/
inductive Event where
  | invokeBefore (hid : Nat)
  | invokeAfter (hid : Nat)
  | invokeError (hid : Nat) (e : Exn)
  | invokeFinally (hid : Nat) (errorSet : Bool) (outputSet : Bool)
  | handlerCall (handlerId : Nat) (e : Exn) (label : String)
  | logError (msg : String)
deriving DecidableEq, Repr

/-- `DefaultHookExecutor` configuration (`core/executor.py`): the injected
error handler (identified by `handlerId`; the trace records calls to it)
and whether a logger was injected. -/
structure HookExecutor where
  handlerId : Nat
  hasLogger : Bool

/-- `_default_error_handler` from `core/executor.py`: swallow errors
silently (its body is `pass`). -/
def defaultErrorHandler (_ : Exn) (_ : String) : Unit := ()

/-- The rule check `rule is None or rule.matches(call_input, context)`
shared by the before/after/error loops of `core/executor.py`. -/
def ruleMatches (r : Option Rule) (ci : CallInput) (ctx : CallContext) : Bool :=
  match r with
  | none => true
  | some rr => rr.matchesFn ci ctx

/-- Events of running one matching before hook: the invocation, then — when
the body raises — the `except Exception` branch of `execute_before`: the
error handler call with label `"Before hook " + name`, and the logger call
if a logger is present. -/
def beforeHookEvents (ex : HookExecutor) (h : BHook) (ci : CallInput)
    (ctx : CallContext) : List Event :=
  Event.invokeBefore h.hid ::
    match h.run ci ctx with
    | none => []
    | some e =>
        Event.handlerCall ex.handlerId e ("Before hook " ++ h.name) ::
          (if ex.hasLogger then
            [Event.logError ("Before hook " ++ h.name ++ " failed: " ++ e.msg)]
          else [])

/-- `DefaultHookExecutor.execute_before`: iterate the `(hook, rule)` list in
order; run each hook whose rule matches (absent rule always matches);
catch a raising body, forward to the error handler, log, continue. -/
def executeBefore (ex : HookExecutor) (hooks : List (BHook × Option Rule))
    (ci : CallInput) (ctx : CallContext) : List Event :=
  match hooks with
  | [] => []
  | (h, r) :: rest =>
      (if ruleMatches r ci ctx then beforeHookEvents ex h ci ctx else []) ++
        executeBefore ex rest ci ctx

/-- Events of running one matching after hook (`execute_after` loop body). -/
def afterHookEvents {ρ : Type} (ex : HookExecutor) (h : AHook ρ) (ci : CallInput)
    (out : CallOutput ρ) (ctx : CallContext) : List Event :=
  Event.invokeAfter h.hid ::
    match h.run ci out ctx with
    | none => []
    | some e =>
        Event.handlerCall ex.handlerId e ("After hook " ++ h.name) ::
          (if ex.hasLogger then
            [Event.logError ("After hook " ++ h.name ++ " failed: " ++ e.msg)]
          else [])

/-- `DefaultHookExecutor.execute_after`. -/
def executeAfter {ρ : Type} (ex : HookExecutor) (hooks : List (AHook ρ × Option Rule))
    (ci : CallInput) (out : CallOutput ρ) (ctx : CallContext) : List Event :=
  match hooks with
  | [] => []
  | (h, r) :: rest =>
      (if ruleMatches r ci ctx then afterHookEvents ex h ci out ctx else []) ++
        executeAfter ex rest ci out ctx

/-- Events of running one matching error hook (`execute_error` loop body);
the hook body receives the captured call exception `err`. -/
def errorHookEvents (ex : HookExecutor) (h : EHook) (ci : CallInput)
    (err : Exn) (ctx : CallContext) : List Event :=
  Event.invokeError h.hid err ::
    match h.run ci err ctx with
    | none => []
    | some e =>
        Event.handlerCall ex.handlerId e ("Error hook " ++ h.name) ::
          (if ex.hasLogger then
            [Event.logError ("Error hook " ++ h.name ++ " failed: " ++ e.msg)]
          else [])

/-- `DefaultHookExecutor.execute_error`. -/
def executeError (ex : HookExecutor) (hooks : List (EHook × Option Rule))
    (ci : CallInput) (err : Exn) (ctx : CallContext) : List Event :=
  match hooks with
  | [] => []
  | (h, r) :: rest =>
      (if ruleMatches r ci ctx then errorHookEvents ex h ci err ctx else []) ++
        executeError ex rest ci err ctx

/-- Events of running one finally hook (`execute_finally` loop body); the
event records the shape of the `CallResult` the hook received. -/
def finallyHookEvents {ρ : Type} (ex : HookExecutor) (h : FHook ρ)
    (result : CallResult ρ) : List Event :=
  Event.invokeFinally h.hid result.error.isSome result.output.isSome ::
    match h.run result with
    | none => []
    | some e =>
        Event.handlerCall ex.handlerId e ("Finally hook " ++ h.name) ::
          (if ex.hasLogger then
            [Event.logError ("Finally hook " ++ h.name ++ " failed: " ++ e.msg)]
          else [])

/-- `DefaultHookExecutor.execute_finally`: finally hooks always run; the
associated rule is ignored (`for hook, _rule in hooks`). -/
def executeFinally {ρ : Type} (ex : HookExecutor) (hooks : List (FHook ρ × Option Rule))
    (result : CallResult ρ) : List Event :=
  match hooks with
  | [] => []
  | (h, _r) :: rest =>
      finallyHookEvents ex h result ++ executeFinally ex rest result

/-- Modelled from the spec: the per-scope hook store
(`InMemoryScopeHookStore`; `core/scopes.py` is not under `src/`).  Spec
4.2: the store holds, per lifecycle stage, one ordered list of
`(hook, rule)` pairs; `register` appends; `get_hooks` returns the current
list, so registration order is preserved and is the execution order. -/
structure ScopeHookStore (ρ : Type) where
  beforeHooks : List (BHook × Option Rule) := []
  afterHooks : List (AHook ρ × Option Rule) := []
  errorHooks : List (EHook × Option Rule) := []
  finallyHooks : List (FHook ρ × Option Rule) := []

/-- Modelled from the spec: registering a before hook appends the
`(hook, rule)` pair to the ordered before list of the store. -/
def registerBefore {ρ : Type} (s : ScopeHookStore ρ) (h : BHook)
    (r : Option Rule) : ScopeHookStore ρ :=
  { s with beforeHooks := s.beforeHooks ++ [(h, r)] }

/-- Modelled from the spec: registering an after hook appends. -/
def registerAfter {ρ : Type} (s : ScopeHookStore ρ) (h : AHook ρ)
    (r : Option Rule) : ScopeHookStore ρ :=
  { s with afterHooks := s.afterHooks ++ [(h, r)] }

/-- Modelled from the spec: registering an error hook appends. -/
def registerError {ρ : Type} (s : ScopeHookStore ρ) (h : EHook)
    (r : Option Rule) : ScopeHookStore ρ :=
  { s with errorHooks := s.errorHooks ++ [(h, r)] }

/-- Modelled from the spec: registering a finally hook appends. -/
def registerFinally {ρ : Type} (s : ScopeHookStore ρ) (h : FHook ρ)
    (r : Option Rule) : ScopeHookStore ρ :=
  { s with finallyHooks := s.finallyHooks ++ [(h, r)] }

/-- Modelled from the spec: scope resolution performed by `wrap`
(not under `src/`).  Spec 4.2/6: the scopes bound to a wrapped client are
the distinguished global scope first, then each named scope in the order
given. -/
def resolveScopes {ρ : Type} (globalScope : ScopeHookStore ρ)
    (named : List (ScopeHookStore ρ)) : List (ScopeHookStore ρ) :=
  globalScope :: named

/-- The outcome of one intercepted call as observed by the caller, the
wrapper variant of `Except`: the returned provider response or the
propagating exception. -/
abbrev Outcome (ρ : Type) := Except Exn ρ

/-- `HookedCompletionsWrapper.create` from `core/wrapper.py`.

Arguments model the data the method consumes:
* `normIn` — the result of `self._adapter.normalize_input(...)` (line
  239; it runs before the `try`, so an exception there propagates with no
  hooks run and no `CallResult` built);
* `scopes` — `self._scopes`; hooks are collected by extending per-stage
  lists over the scopes in order (lines 249 — 253);
* `provider` — the behaviour of `await self._original.create(...)` for
  this call: the response it returns or the exception it raises;
* `normOut` — `self._adapter.normalize_output`, total per the adapter
  contract (see `normalizeOutputOpenAI` and `normalizeOutputAnthropic`);
* `endedAt`, `elapsedMs` — the clock readings taken in the `finally`
  block.

Returns the event trace, the caller-visible outcome, and the `CallResult`
handed to `execute_finally` (`none` when the `finally` block is never
entered because input normalization raised).

Control flow, mirroring the source: run before hooks; on provider success
normalize output, run after hooks, return the original response; on
provider exception run error hooks and re-raise; in both cases the
`finally` block builds the single `CallResult` and runs finally hooks. -/
def create {ρ : Type} (ex : HookExecutor) (scopes : List (ScopeHookStore ρ))
    (normIn : Except Exn (CallInput × CallContext)) (provider : Outcome ρ)
    (normOut : ρ → CallOutput ρ) (endedAt elapsedMs : Nat) :
    List Event × Outcome ρ × Option (CallResult ρ) :=
  match normIn with
  | .error e => ([], .error e, none)
  | .ok (ci, ctx) =>
      let allBefore := scopes.flatMap ScopeHookStore.beforeHooks
      let allAfter := scopes.flatMap ScopeHookStore.afterHooks
      let allError := scopes.flatMap ScopeHookStore.errorHooks
      let allFinally := scopes.flatMap ScopeHookStore.finallyHooks
      let trB := executeBefore ex allBefore ci ctx
      match provider with
      | .ok resp =>
          let output := normOut resp
          let trA := executeAfter ex allAfter ci output ctx
          let result : CallResult ρ :=
            { input := ci, output := some output, context := ctx,
              error := none, endedAt := endedAt, elapsedMs := elapsedMs }
          let trF := executeFinally ex allFinally result
          (trB ++ trA ++ trF, .ok resp, some result)
      | .error e =>
          let trE := executeError ex allError ci e ctx
          let result : CallResult ρ :=
            { input := ci, output := none, context := ctx,
              error := some e, endedAt := endedAt, elapsedMs := elapsedMs }
          let trF := executeFinally ex allFinally result
          (trB ++ trE ++ trF, .error e, some result)

/-! ## Provider adapters: client detection (`providers/openai.py`,
`providers/anthropic.py`, `core/wrapper.py`) -/

/-- A possibly present attribute whose value may or may not be callable
(models the `getattr` + `callable` checks of the detect functions). -/
structure PyMethod where
  callable : Bool
deriving DecidableEq, Repr

/-- Structural model of the `completions` attribute of an OpenAI-shaped
client: it may or may not carry a `create` attribute. -/
structure CompletionsAttr where
  create : Option PyMethod
deriving DecidableEq, Repr

/-- Structural model of the `chat` attribute: it may or may not carry a
`completions` attribute. -/
structure ChatAttr where
  completions : Option CompletionsAttr
deriving DecidableEq, Repr

/-- Structural model of the `messages` attribute of an Anthropic-shaped
client: it may or may not carry a `create` attribute. -/
structure MessagesAttr where
  create : Option PyMethod
deriving DecidableEq, Repr

/-- Structural model of a provider client, as far as the two detect
functions inspect it: which attributes exist and whether the leaf `create`
attributes are callable.  `typeName` models `str(type(client))` for the
unsupported-client error message. -/
structure Client where
  typeName : String
  chat : Option ChatAttr
  messages : Option MessagesAttr
deriving DecidableEq, Repr

/-- `OpenAIAdapter.detect` from `providers/openai.py`: require a callable
`chat.completions.create`; then, if the client also exposes a callable
`messages.create` (both structures exist), conservatively do not match. -/
def openAIDetect (c : Client) : Bool :=
  match c.chat with
  | none => false
  | some ch =>
      match ch.completions with
      | none => false
      | some comp =>
          match comp.create with
          | none => false
          | some m =>
              if !m.callable then false
              else
                match c.messages with
                | none => true
                | some ms =>
                    match ms.create with
                    | none => true
                    | some mc => !mc.callable

/-- `AnthropicAdapter.detect` from `providers/anthropic.py`: match iff the
client exposes a callable `messages.create`. -/
def anthropicDetect (c : Client) : Bool :=
  match c.messages with
  | none => false
  | some ms =>
      match ms.create with
      | none => false
      | some m => m.callable

/-- The two provider adapters the wrapper can select. -/
inductive Adapter where
  | anthropic
  | openai
deriving DecidableEq, Repr

/-- The message of the `ValueError` raised by `_detect_provider_adapter`
when no adapter matches (`core/wrapper.py` lines 63 — 67). -/
def unsupportedClientMsg (typeName : String) : String :=
  "Unsupported client type: " ++ typeName ++ ". " ++
    "Supported providers: OpenAI, Anthropic. " ++
    "Install with: pip install hookedllm[openai] or pip install hookedllm[anthropic]"

/-- `_detect_provider_adapter` from `core/wrapper.py` (lines 40 — 67),
with both adapter imports available: the candidate list is
`[AnthropicAdapter, OpenAIAdapter]` (Anthropic first, being the more
structurally specific provider); the first adapter whose `detect` returns
true is chosen; if none matches a `ValueError` is raised whose message
names the client type and the supported providers. -/
def detectProviderAdapter (c : Client) : Except String Adapter :=
  if anthropicDetect c then .ok .anthropic
  else if openAIDetect c then .ok .openai
  else .error (unsupportedClientMsg c.typeName)

/-! ## Provider adapters: output normalization -/

/-- Decidable equality for `Except`, needed to evaluate witness checks on
response models containing fallible method slots. -/
instance instDecEqExcept {ε α : Type} [DecidableEq ε] [DecidableEq α] :
    DecidableEq (Except ε α) := fun a b =>
  match a, b with
  | .ok x, .ok y =>
      if h : x = y then .isTrue (by rw [h])
      else .isFalse (by intro hc; cases hc; exact h rfl)
  | .ok _, .error _ => .isFalse (by intro hc; cases hc)
  | .error _, .ok _ => .isFalse (by intro hc; cases hc)
  | .error x, .error y =>
      if h : x = y then .isTrue (by rw [h])
      else .isFalse (by intro hc; cases hc; exact h rfl)

/-- Structural model of a `usage` object on a provider response: the
optional `model_dump` and `dict` methods (calling either may itself raise),
the optional `__dict__` mapping, and — for Anthropic — the optional
`input_tokens` / `output_tokens` attributes. -/
structure UsageObj where
  modelDump : Option (Except Exn UsageDict)
  dictMethod : Option (Except Exn UsageDict)
  dunderDict : Option UsageDict
  inputTokens : Option Nat
  outputTokens : Option Nat
deriving DecidableEq, Repr

/-- The usage-conversion chain shared by both adapters:
`model_dump()` if present, else `dict()`, else `dict(obj.__dict__)`, else
nothing.  Calling `model_dump`/`dict` may raise; that exception escapes to
the surrounding `try`. -/
def usageFromObj (u : UsageObj) : Except Exn (Option UsageDict) :=
  match u.modelDump with
  | some res => do
      let d ← res
      pure (some d)
  | none =>
      match u.dictMethod with
      | some res => do
          let d ← res
          pure (some d)
      | none =>
          match u.dunderDict with
          | some d => pure (some d)
          | none => pure none

/-- Structural model of `choices[i].message` on an OpenAI response. -/
structure OMessageAttr where
  content : Option String
deriving DecidableEq, Repr

/-- Structural model of one element of `choices` on an OpenAI response. -/
structure OChoice where
  message : Option OMessageAttr
  finishReason : Option String
deriving DecidableEq, Repr

/-- Structural model of an OpenAI response object, as far as
`OpenAIAdapter.normalize_output` inspects it. -/
structure OpenAIResponse where
  choices : Option (List OChoice)
  usage : Option UsageObj
deriving DecidableEq, Repr

/-- The body of the `try` block of `OpenAIAdapter.normalize_output`
(`providers/openai.py` lines 149 — 174): extract `text` from
`choices[0].message.content`, `usage` via the conversion chain and
`finish_reason` from `choices[0].finish_reason`. -/
def extractOpenAI (r : OpenAIResponse) :
    Except Exn (Option String × Option UsageDict × Option String) := do
  let text : Option String :=
    match r.choices with
    | some (c :: _) =>
        match c.message with
        | some m => m.content
        | none => none
    | _ => none
  let usage ←
    match r.usage with
    | some u => usageFromObj u
    | none => pure none
  let fin : Option String :=
    match r.choices with
    | some (c :: _) => c.finishReason
    | _ => none
  pure (text, usage, fin)

/-- `OpenAIAdapter.normalize_output`: run the extraction inside
`try ... except Exception`; on any internal failure return the minimal
`CallOutput` that still carries the original response in `raw`. -/
def normalizeOutputOpenAI (r : OpenAIResponse) : CallOutput OpenAIResponse :=
  match extractOpenAI r with
  | .ok (t, u, f) => { text := t, raw := r, usage := u, finishReason := f }
  | .error _ => { text := none, raw := r, usage := none, finishReason := none }

/-- Structural model of one Anthropic content block: a dict block (whose
`"text"` key may be absent) or a non-dict object that may or may not carry
a `text` attribute. -/
inductive ABlock where
  | dictBlock (text : Option String)
  | objBlock (text : Option String)
deriving DecidableEq, Repr

/-- Structural model of the `content` attribute of an Anthropic response:
a Python list of blocks, or a present value that is not a list (the
`isinstance(response.content, list)` check). -/
inductive AContent where
  | blocks (l : List ABlock)
  | nonList
deriving DecidableEq, Repr

/-- Structural model of an Anthropic response object, as far as
`AnthropicAdapter.normalize_output` inspects it. -/
structure AnthropicResponse where
  content : Option AContent
  usage : Option UsageObj
  stopReason : Option String
deriving DecidableEq, Repr

/-- A dict lookup (`key in d` / `d.get(key, 0)`) on a usage dict. -/
def dictLookup (d : UsageDict) (k : String) : Option Nat :=
  match d with
  | [] => none
  | (k2, v) :: rest => if k2 = k then some v else dictLookup rest k

/-- The body of the `try` block of `AnthropicAdapter.normalize_output`
(`providers/anthropic.py` lines 139 — 182): extract `text` from the first
content block, `usage` (gated on `input_tokens` and `output_tokens` being
present, with a manual fallback dict and a `total_tokens` completion) and
`finish_reason` from `stop_reason`. -/
def extractAnthropic (r : AnthropicResponse) :
    Except Exn (Option String × Option UsageDict × Option String) := do
  let text : Option String :=
    match r.content with
    | some (.blocks (b :: _)) =>
        match b with
        | .dictBlock t => t
        | .objBlock t => t
    | _ => none
  let usage0 ←
    match r.usage with
    | some u =>
        match u.inputTokens, u.outputTokens with
        | some i, some o =>
            (match u.modelDump with
            | some res => do
                let d ← res
                pure (some d)
            | none =>
                match u.dictMethod with
                | some res => do
                    let d ← res
                    pure (some d)
                | none =>
                    match u.dunderDict with
                    | some d => pure (some d)
                    | none =>
                        pure (some [("input_tokens", i), ("output_tokens", o),
                          ("total_tokens", i + o)]))
        | _, _ => pure (none : Option UsageDict)
    | none => pure none
  let usage : Option UsageDict :=
    match usage0 with
    | some d =>
        if d ≠ [] ∧ dictLookup d "total_tokens" = none then
          some (d ++ [("total_tokens",
            (dictLookup d "input_tokens").getD 0 +
              (dictLookup d "output_tokens").getD 0)])
        else some d
    | none => none
  let fin : Option String := r.stopReason
  pure (text, usage, fin)

/-- `AnthropicAdapter.normalize_output`: run the extraction inside
`try ... except Exception`; on any internal failure return the minimal
`CallOutput` that still carries the original response in `raw`. -/
def normalizeOutputAnthropic (r : AnthropicResponse) : CallOutput AnthropicResponse :=
  match extractAnthropic r with
  | .ok (t, u, f) => { text := t, raw := r, usage := u, finishReason := f }
  | .error _ => { text := none, raw := r, usage := none, finishReason := none }

/-! ## Event projections and executor lemmas -/

/-- Is this event a before-hook invocation. -/
def isInvB : Event → Bool
  | .invokeBefore _ => true
  | .invokeAfter _ => false
  | .invokeError _ _ => false
  | .invokeFinally _ _ _ => false
  | .handlerCall _ _ _ => false
  | .logError _ => false

/-- Is this event an after-hook invocation. -/
def isInvA : Event → Bool
  | .invokeBefore _ => false
  | .invokeAfter _ => true
  | .invokeError _ _ => false
  | .invokeFinally _ _ _ => false
  | .handlerCall _ _ _ => false
  | .logError _ => false

/-- Is this event an error-hook invocation. -/
def isInvE : Event → Bool
  | .invokeBefore _ => false
  | .invokeAfter _ => false
  | .invokeError _ _ => true
  | .invokeFinally _ _ _ => false
  | .handlerCall _ _ _ => false
  | .logError _ => false

/-- Is this event a finally-hook invocation. -/
def isInvF : Event → Bool
  | .invokeBefore _ => false
  | .invokeAfter _ => false
  | .invokeError _ _ => false
  | .invokeFinally _ _ _ => true
  | .handlerCall _ _ _ => false
  | .logError _ => false

/-- Claim-side shape predicate: the client structurally exposes a callable
`chat.completions.create` (the OpenAI shape). -/
def hasCallableChatCompletionsCreate (c : Client) : Bool :=
  match c.chat with
  | some ch =>
      match ch.completions with
      | some comp =>
          match comp.create with
          | some m => m.callable
          | none => false
      | none => false
  | none => false

/-- Claim-side shape predicate: the client structurally exposes a callable
`messages.create` (the Anthropic shape). -/
def hasCallableMessagesCreate (c : Client) : Bool :=
  match c.messages with
  | some ms =>
      match ms.create with
      | some m => m.callable
      | none => false
  | none => false

/-! ## Concrete fixtures used by witness theorems -/

/-- A concrete executor: error handler object 7 injected, no logger. -/
def wEx : HookExecutor := { handlerId := 7, hasLogger := false }

/-- A concrete call input. -/
def wCi : CallInput :=
  { model := "gpt-4", messages := [{ role := "user", content := "hi" }],
    params := [], metadata := [] }

/-- A concrete call context. -/
def wCtx : CallContext :=
  { callId := 1, parentId := none, provider := "openai", model := "gpt-4",
    route := "chat", tags := ["prod"], startedAt := 0, metadata := [] }

/-- A rule that matches only model `"gpt-4"`. -/
def wRuleGpt4 : Rule := { matchesFn := fun ci _ => ci.model = "gpt-4" }

/-- A rule that never matches. -/
def wRuleNever : Rule := { matchesFn := fun _ _ => false }

/-- A before hook that succeeds. -/
def wBOk : BHook := { hid := 1, name := "b_ok", run := fun _ _ => none }

/-- A before hook whose body raises `ValueError("boom")` (exception
object 9). -/
def wBBoom : BHook := { hid := 2, name := "b_boom", run := fun _ _ => some { eid := 9, msg := "boom" } }

/-- An after hook (response type `Nat`) that succeeds. -/
def wAOk : AHook Nat := { hid := 3, name := "a_ok", run := fun _ _ _ => none }

/-- An after hook that raises. -/
def wABoom : AHook Nat := { hid := 4, name := "a_boom", run := fun _ _ _ => some { eid := 10, msg := "bad" } }

/-- An error hook that succeeds. -/
def wEOk : EHook := { hid := 5, name := "e_ok", run := fun _ _ _ => none }

/-- An error hook that raises. -/
def wEBoom : EHook := { hid := 6, name := "e_boom", run := fun _ _ _ => some { eid := 11, msg := "worse" } }

/-- A finally hook (response type `Nat`) that succeeds. -/
def wFOk : FHook Nat := { hid := 7, name := "f_ok", run := fun _ => none }

/-- A finally hook that raises. -/
def wFBoom : FHook Nat := { hid := 8, name := "f_boom", run := fun _ => some { eid := 12, msg := "ugh" } }

/-- A concrete scope carrying one hook per stage, the finally hook guarded
by a (to be ignored) never-matching rule. -/
def wScope : ScopeHookStore Nat :=
  { beforeHooks := [(wBOk, some wRuleGpt4)], afterHooks := [(wAOk, none)],
    errorHooks := [(wEOk, none)], finallyHooks := [(wFOk, some wRuleNever)] }

/-- The exception `ValueError("boom")` raised by a provider call in
witnesses (exception object 20). -/
def wProviderErr : Exn := { eid := 20, msg := "boom" }

/-- A trivial output normalizer for response type `Nat`. -/
def wNormOut : Nat → CallOutput Nat :=
  fun n => { text := some "ok", raw := n, usage := none, finishReason := some "stop" }

/-- A concrete client exposing both a callable `chat.completions.create`
and a callable `messages.create` (the ambiguous MagicMock shape). -/
def wClientBoth : Client :=
  { typeName := "MagicMock",
    chat := some { completions := some { create := some { callable := true } } },
    messages := some { create := some { callable := true } } }

/-- A concrete client with only the OpenAI shape. -/
def wClientOpenAI : Client :=
  { typeName := "AsyncOpenAI",
    chat := some { completions := some { create := some { callable := true } } },
    messages := none }

/-- A concrete client with only the Anthropic shape. -/
def wClientAnthropic : Client :=
  { typeName := "AsyncAnthropic", chat := none,
    messages := some { create := some { callable := true } } }

/-- A concrete client with neither provider shape. -/
def wClientNone : Client := { typeName := "dict", chat := none, messages := none }

/-- The `CallResult` of a successful concrete call returning `42`. -/
def wOkResult : CallResult Nat :=
  { input := wCi, output := some (wNormOut 42), context := wCtx, error := none,
    endedAt := 5, elapsedMs := 3 }

/-- A before hook for the global scope (object 10). -/
def wBGlobal : BHook := { hid := 10, name := "g", run := fun _ _ => none }

/-- A before hook for named scope a (object 11). -/
def wBScopeA : BHook := { hid := 11, name := "a", run := fun _ _ => none }

/-- A before hook for named scope b (object 12). -/
def wBScopeB : BHook := { hid := 12, name := "b", run := fun _ _ => none }

/-- A global scope carrying one before hook. -/
def wScopeG : ScopeHookStore Nat := { beforeHooks := [(wBGlobal, none)] }

/-- Named scope a carrying one before hook. -/
def wScopeA : ScopeHookStore Nat := { beforeHooks := [(wBScopeA, none)] }

/-- Named scope b carrying one before hook. -/
def wScopeB : ScopeHookStore Nat := { beforeHooks := [(wBScopeB, none)] }

/-- A usage object whose `model_dump` method raises (exception object 30). -/
def wBadUsage : UsageObj :=
  { modelDump := some (.error { eid := 30, msg := "dump failed" }),
    dictMethod := none, dunderDict := none, inputTokens := none, outputTokens := none }

/-- An OpenAI response whose usage extraction raises internally. -/
def wBadOResp : OpenAIResponse :=
  { choices := some [{ message := some { content := some "hello" }, finishReason := some "stop" }],
    usage := some wBadUsage }

/-- An Anthropic usage object whose `model_dump` raises; token attributes
present so the conversion chain is entered. -/
def wBadAUsage : UsageObj :=
  { modelDump := some (.error { eid := 31, msg := "dump failed" }),
    dictMethod := none, dunderDict := none, inputTokens := some 3, outputTokens := some 4 }

/-- An Anthropic response whose usage extraction raises internally. -/
def wBadAResp : AnthropicResponse :=
  { content := some (.blocks [.dictBlock (some "hello")]),
    usage := some wBadAUsage, stopReason := some "end_turn" }

theorem executeBefore_append (ex : HookExecutor) (l1 l2 : List (BHook × Option Rule))
    (ci : CallInput) (ctx : CallContext) :
    executeBefore ex (l1 ++ l2) ci ctx =
      executeBefore ex l1 ci ctx ++ executeBefore ex l2 ci ctx := by
  induction l1 with
  | nil => simp [executeBefore]
  | cons p rest ih =>
      obtain ⟨h, r⟩ := p
      simp [executeBefore, ih]

theorem executeAfter_append {ρ : Type} (ex : HookExecutor)
    (l1 l2 : List (AHook ρ × Option Rule)) (ci : CallInput) (out : CallOutput ρ)
    (ctx : CallContext) :
    executeAfter ex (l1 ++ l2) ci out ctx =
      executeAfter ex l1 ci out ctx ++ executeAfter ex l2 ci out ctx := by
  induction l1 with
  | nil => simp [executeAfter]
  | cons p rest ih =>
      obtain ⟨h, r⟩ := p
      simp [executeAfter, ih]

theorem executeError_append (ex : HookExecutor) (l1 l2 : List (EHook × Option Rule))
    (ci : CallInput) (err : Exn) (ctx : CallContext) :
    executeError ex (l1 ++ l2) ci err ctx =
      executeError ex l1 ci err ctx ++ executeError ex l2 ci err ctx := by
  induction l1 with
  | nil => simp [executeError]
  | cons p rest ih =>
      obtain ⟨h, r⟩ := p
      simp [executeError, ih]

theorem executeFinally_append {ρ : Type} (ex : HookExecutor)
    (l1 l2 : List (FHook ρ × Option Rule)) (result : CallResult ρ) :
    executeFinally ex (l1 ++ l2) result =
      executeFinally ex l1 result ++ executeFinally ex l2 result := by
  induction l1 with
  | nil => simp [executeFinally]
  | cons p rest ih =>
      obtain ⟨h, r⟩ := p
      simp [executeFinally, ih]

theorem beforeHookEvents_filters (ex : HookExecutor) (h : BHook) (ci : CallInput)
    (ctx : CallContext) :
    (beforeHookEvents ex h ci ctx).filter isInvB = [Event.invokeBefore h.hid] ∧
    (beforeHookEvents ex h ci ctx).filter isInvA = [] ∧
    (beforeHookEvents ex h ci ctx).filter isInvE = [] ∧
    (beforeHookEvents ex h ci ctx).filter isInvF = [] := by
  unfold beforeHookEvents
  cases h.run ci ctx <;> cases hl : ex.hasLogger <;>
    simp [isInvB, isInvA, isInvE, isInvF]

theorem afterHookEvents_filters {ρ : Type} (ex : HookExecutor) (h : AHook ρ)
    (ci : CallInput) (out : CallOutput ρ) (ctx : CallContext) :
    (afterHookEvents ex h ci out ctx).filter isInvA = [Event.invokeAfter h.hid] ∧
    (afterHookEvents ex h ci out ctx).filter isInvB = [] ∧
    (afterHookEvents ex h ci out ctx).filter isInvE = [] ∧
    (afterHookEvents ex h ci out ctx).filter isInvF = [] := by
  unfold afterHookEvents
  cases h.run ci out ctx <;> cases hl : ex.hasLogger <;>
    simp [isInvB, isInvA, isInvE, isInvF]

theorem errorHookEvents_filters (ex : HookExecutor) (h : EHook) (ci : CallInput)
    (err : Exn) (ctx : CallContext) :
    (errorHookEvents ex h ci err ctx).filter isInvE = [Event.invokeError h.hid err] ∧
    (errorHookEvents ex h ci err ctx).filter isInvB = [] ∧
    (errorHookEvents ex h ci err ctx).filter isInvA = [] ∧
    (errorHookEvents ex h ci err ctx).filter isInvF = [] := by
  unfold errorHookEvents
  cases h.run ci err ctx <;> cases hl : ex.hasLogger <;>
    simp [isInvB, isInvA, isInvE, isInvF]

theorem finallyHookEvents_filters {ρ : Type} (ex : HookExecutor) (h : FHook ρ)
    (result : CallResult ρ) :
    (finallyHookEvents ex h result).filter isInvF =
      [Event.invokeFinally h.hid result.error.isSome result.output.isSome] ∧
    (finallyHookEvents ex h result).filter isInvB = [] ∧
    (finallyHookEvents ex h result).filter isInvA = [] ∧
    (finallyHookEvents ex h result).filter isInvE = [] := by
  unfold finallyHookEvents
  cases h.run result <;> cases hl : ex.hasLogger <;>
    simp [isInvB, isInvA, isInvE, isInvF]

/-- Trace characterization of `execute_before`: the before-hook invocations
are exactly the rule-matching entries, in list order; no other stage's
invocation events are emitted. -/
theorem executeBefore_filters (ex : HookExecutor) (hooks : List (BHook × Option Rule))
    (ci : CallInput) (ctx : CallContext) :
    (executeBefore ex hooks ci ctx).filter isInvB =
      (hooks.filter fun p => ruleMatches p.2 ci ctx).map
        (fun p => Event.invokeBefore p.1.hid) ∧
    (executeBefore ex hooks ci ctx).filter isInvA = [] ∧
    (executeBefore ex hooks ci ctx).filter isInvE = [] ∧
    (executeBefore ex hooks ci ctx).filter isInvF = [] := by
  induction hooks with
  | nil => simp [executeBefore]
  | cons p rest ih =>
      obtain ⟨h, r⟩ := p
      obtain ⟨e1, e2, e3, e4⟩ := beforeHookEvents_filters ex h ci ctx
      by_cases hm : ruleMatches r ci ctx <;>
        simp [executeBefore, hm, e1, e2, e3, e4, ih.1, ih.2.1, ih.2.2.1, ih.2.2.2]

/-- Trace characterization of `execute_after`. -/
theorem executeAfter_filters {ρ : Type} (ex : HookExecutor)
    (hooks : List (AHook ρ × Option Rule)) (ci : CallInput) (out : CallOutput ρ)
    (ctx : CallContext) :
    (executeAfter ex hooks ci out ctx).filter isInvA =
      (hooks.filter fun p => ruleMatches p.2 ci ctx).map
        (fun p => Event.invokeAfter p.1.hid) ∧
    (executeAfter ex hooks ci out ctx).filter isInvB = [] ∧
    (executeAfter ex hooks ci out ctx).filter isInvE = [] ∧
    (executeAfter ex hooks ci out ctx).filter isInvF = [] := by
  induction hooks with
  | nil => simp [executeAfter]
  | cons p rest ih =>
      obtain ⟨h, r⟩ := p
      obtain ⟨e1, e2, e3, e4⟩ := afterHookEvents_filters ex h ci out ctx
      by_cases hm : ruleMatches r ci ctx <;>
        simp [executeAfter, hm, e1, e2, e3, e4, ih.1, ih.2.1, ih.2.2.1, ih.2.2.2]

/-- Trace characterization of `execute_error`: every rule-matching error
hook is invoked with the captured exception, in list order. -/
theorem executeError_filters (ex : HookExecutor) (hooks : List (EHook × Option Rule))
    (ci : CallInput) (err : Exn) (ctx : CallContext) :
    (executeError ex hooks ci err ctx).filter isInvE =
      (hooks.filter fun p => ruleMatches p.2 ci ctx).map
        (fun p => Event.invokeError p.1.hid err) ∧
    (executeError ex hooks ci err ctx).filter isInvB = [] ∧
    (executeError ex hooks ci err ctx).filter isInvA = [] ∧
    (executeError ex hooks ci err ctx).filter isInvF = [] := by
  induction hooks with
  | nil => simp [executeError]
  | cons p rest ih =>
      obtain ⟨h, r⟩ := p
      obtain ⟨e1, e2, e3, e4⟩ := errorHookEvents_filters ex h ci err ctx
      by_cases hm : ruleMatches r ci ctx <;>
        simp [executeError, hm, e1, e2, e3, e4, ih.1, ih.2.1, ih.2.2.1, ih.2.2.2]

/-- Trace characterization of `execute_finally`: every finally hook is
invoked — the rule is ignored — with the one `CallResult`, in list order. -/
theorem executeFinally_filters {ρ : Type} (ex : HookExecutor)
    (hooks : List (FHook ρ × Option Rule)) (result : CallResult ρ) :
    (executeFinally ex hooks result).filter isInvF =
      hooks.map (fun p =>
        Event.invokeFinally p.1.hid result.error.isSome result.output.isSome) ∧
    (executeFinally ex hooks result).filter isInvB = [] ∧
    (executeFinally ex hooks result).filter isInvA = [] ∧
    (executeFinally ex hooks result).filter isInvE = [] := by
  induction hooks with
  | nil => simp [executeFinally]
  | cons p rest ih =>
      obtain ⟨h, r⟩ := p
      obtain ⟨e1, e2, e3, e4⟩ := finallyHookEvents_filters ex h result
      simp [executeFinally, e1, e2, e3, e4, ih.1, ih.2.1, ih.2.2.1, ih.2.2.2]

/-! ## Claim theorems -/

/-- C1: for every call through a wrapped client in which the underlying
provider method returns, the wrapped `create` returns exactly the provider
response object — the very value `resp`, for an arbitrary response type,
so reference-identical and unaltered — regardless of which hooks are bound
in the scopes or what their bodies do. -/
theorem c1_wrapped_create_returns_original_response {ρ : Type} (ex : HookExecutor)
    (scopes : List (ScopeHookStore ρ)) (ci : CallInput) (ctx : CallContext)
    (normOut : ρ → CallOutput ρ) (endedAt elapsedMs : Nat) (resp : ρ) :
    (create ex scopes (.ok (ci, ctx)) (.ok resp) normOut endedAt elapsedMs).2.1 =
      .ok resp := by
  simp [create]

/-- C2: when the provider call raises `e`, the wrapped `create` runs the
rule-matching error hooks with that very exception, re-raises the same
exception object unchanged to the caller, and the finally hooks receive
one `CallResult` whose `error` field is set (to `e`) and whose `output`
field is absent. -/
theorem c2_provider_exception_reraised_unchanged {ρ : Type} (ex : HookExecutor)
    (scopes : List (ScopeHookStore ρ)) (ci : CallInput) (ctx : CallContext)
    (normOut : ρ → CallOutput ρ) (endedAt elapsedMs : Nat) (e : Exn) :
    (create ex scopes (.ok (ci, ctx)) (.error e) normOut endedAt elapsedMs).2.1 =
      .error e ∧
    (create ex scopes (.ok (ci, ctx)) (.error e) normOut endedAt elapsedMs).1.filter
        isInvE =
      ((scopes.flatMap ScopeHookStore.errorHooks).filter
        (fun p => ruleMatches p.2 ci ctx)).map (fun p => Event.invokeError p.1.hid e) ∧
    ∃ R : CallResult ρ,
      (create ex scopes (.ok (ci, ctx)) (.error e) normOut endedAt elapsedMs).2.2 =
        some R ∧
      R.error = some e ∧ R.output = none ∧
      (create ex scopes (.ok (ci, ctx)) (.error e) normOut endedAt elapsedMs).1.filter
          isInvF =
        (scopes.flatMap ScopeHookStore.finallyHooks).map
          (fun p => Event.invokeFinally p.1.hid true false) := by
  have hb := executeBefore_filters ex (scopes.flatMap ScopeHookStore.beforeHooks) ci ctx
  have he := executeError_filters ex (scopes.flatMap ScopeHookStore.errorHooks) ci e ctx
  have hf := executeFinally_filters ex (scopes.flatMap ScopeHookStore.finallyHooks)
      ({ input := ci, output := none, context := ctx, error := some e,
         endedAt := endedAt, elapsedMs := elapsedMs } : CallResult ρ)
  refine ⟨by simp [create], ?_, ?_⟩
  · simp [create, List.filter_append, hb.2.2.1, he.1, hf.2.2.2]
  · refine ⟨_, rfl, rfl, rfl, ?_⟩
    have hfin := hf.1
    simp only [Option.isSome_some, Option.isSome_none] at hfin
    simp [create, List.filter_append, hb.2.2.2, he.2.2.2, hfin]

/-- C2 witness: spec scenario 2 — with a finally hook registered, a
provider raise of `ValueError("boom")` propagates unchanged and the
finally hook is invoked with error set and output absent (its
never-matching rule ignored). -/
theorem c2_provider_exception_reraised_unchanged_witness :
    (create wEx [wScope] (.ok (wCi, wCtx)) (.error wProviderErr) wNormOut 5 3).2.1 =
      .error wProviderErr ∧
    (create wEx [wScope] (.ok (wCi, wCtx)) (.error wProviderErr) wNormOut 5 3).1.filter
        isInvF = [Event.invokeFinally 7 true false] := by
  obtain ⟨h1, h2, R, hR, hRe, hRo, hF⟩ :=
    c2_provider_exception_reraised_unchanged wEx [wScope] wCi wCtx wNormOut 5 3
      wProviderErr
  exact ⟨h1, hF.trans (by decide)⟩

/-- C4: for every intercepted call in which the provider call is reached
(input normalization succeeded), whether that call succeeds or raises,
exactly one `CallResult` is constructed in the cleanup block after the
outcome is known, and every registered finally hook — its rule ignored —
is invoked with that single result. -/
theorem c4_single_callresult_runs_every_finally_hook {ρ : Type} (ex : HookExecutor)
    (scopes : List (ScopeHookStore ρ)) (ci : CallInput) (ctx : CallContext)
    (normOut : ρ → CallOutput ρ) (endedAt elapsedMs : Nat) (provider : Outcome ρ) :
    ∃ R : CallResult ρ,
      (create ex scopes (.ok (ci, ctx)) provider normOut endedAt elapsedMs).2.2 =
        some R ∧
      (create ex scopes (.ok (ci, ctx)) provider normOut endedAt elapsedMs).1.filter
          isInvF =
        (scopes.flatMap ScopeHookStore.finallyHooks).map
          (fun p => Event.invokeFinally p.1.hid R.error.isSome R.output.isSome) := by
  have hb := executeBefore_filters ex (scopes.flatMap ScopeHookStore.beforeHooks) ci ctx
  cases provider with
  | ok resp =>
      have ha := executeAfter_filters ex (scopes.flatMap ScopeHookStore.afterHooks) ci
        (normOut resp) ctx
      have hf := executeFinally_filters ex (scopes.flatMap ScopeHookStore.finallyHooks)
          ({ input := ci, output := some (normOut resp), context := ctx, error := none,
             endedAt := endedAt, elapsedMs := elapsedMs } : CallResult ρ)
      refine ⟨_, rfl, ?_⟩
      simp [create, List.filter_append, hb.2.2.2, ha.2.2.2, hf.1]
  | error e =>
      have he := executeError_filters ex (scopes.flatMap ScopeHookStore.errorHooks) ci e ctx
      have hf := executeFinally_filters ex (scopes.flatMap ScopeHookStore.finallyHooks)
          ({ input := ci, output := none, context := ctx, error := some e,
             endedAt := endedAt, elapsedMs := elapsedMs } : CallResult ρ)
      refine ⟨_, rfl, ?_⟩
      simp [create, List.filter_append, hb.2.2.2, he.2.2.2, hf.1]

/-- C4 witness: on a successful concrete call the one `CallResult` has no
error and an output, and the registered finally hook is invoked with it
despite its never-matching rule. -/
theorem c4_single_callresult_runs_every_finally_hook_witness :
    (create wEx [wScope] (.ok (wCi, wCtx)) (.ok 42) wNormOut 5 3).1.filter isInvF =
      [Event.invokeFinally 7 false true] := by
  obtain ⟨R, hR, hF⟩ :=
    c4_single_callresult_runs_every_finally_hook wEx [wScope] wCi wCtx wNormOut 5 3
      (.ok 42)
  have h0 : (create wEx [wScope] (.ok (wCi, wCtx)) (.ok 42) wNormOut 5 3).2.2 =
      some wOkResult := by decide
  have hRR : R = wOkResult := Option.some_inj.mp (hR.symm.trans h0)
  rw [hRR] at hF
  exact hF.trans (by decide)

/-- C5: the `CallResult` handed to finally hooks has its `error` field set
if and only if the provider call raised — and then it holds that very
exception; when input normalization itself raises, no `CallResult` is
handed to finally hooks at all (the `finally` block is never entered), so
every handed result comes from a call whose normalization succeeded. -/
theorem c5_error_field_iff_provider_raised {ρ : Type} (ex : HookExecutor)
    (scopes : List (ScopeHookStore ρ)) (ci : CallInput) (ctx : CallContext)
    (normOut : ρ → CallOutput ρ) (endedAt elapsedMs : Nat) (provider : Outcome ρ) :
    (∀ R : CallResult ρ,
      (create ex scopes (.ok (ci, ctx)) provider normOut endedAt elapsedMs).2.2 =
          some R →
        ((R.error.isSome = true) ↔ ∃ e, provider = .error e) ∧
        (∀ e, provider = .error e → R.error = some e)) ∧
    (∀ e0 : Exn,
      (create ex scopes (.error e0) provider normOut endedAt elapsedMs).2.2 = none) := by
  constructor
  · intro R hR
    cases provider with
    | ok resp =>
        simp [create] at hR
        constructor
        · rw [← hR]
          simp
        · intro e he
          cases he
    | error e =>
        simp [create] at hR
        constructor
        · rw [← hR]
          simp
        · intro e2 he2
          cases he2
          rw [← hR]
  · intro e0
    simp [create]

/-- C5 witness: with one concrete scope, a provider raise of
`ValueError("boom")` yields a handed `CallResult` whose error is exactly
that exception. -/
theorem c5_error_field_iff_provider_raised_witness :
    ({ input := wCi, output := none, context := wCtx, error := some wProviderErr,
       endedAt := 5, elapsedMs := 3 } : CallResult Nat).error = some wProviderErr := by
  have h := (c5_error_field_iff_provider_raised wEx [wScope] wCi wCtx wNormOut 5 3
      (.error wProviderErr)).1
      { input := wCi, output := none, context := wCtx, error := some wProviderErr,
        endedAt := 5, elapsedMs := 3 } (by decide)
  exact h.2 wProviderErr rfl

/-- C3: for every stage, a hook body that raises is caught by the executor
(the executor is a total function back into a trace: no hook exception
ever propagates), the exception is forwarded to the injected error handler
with the stage-specific descriptive label (and logged when a logger is
present, and nothing else happens — the default handler swallows), and the
remaining hooks of the stage run exactly as they would have; the overall
call outcome is the provider outcome whatever the bound hooks do. -/
theorem c3_hook_failures_are_isolated {ρ : Type} (ex : HookExecutor) (ci : CallInput)
    (ctx : CallContext) (out : CallOutput ρ) (err : Exn) (result : CallResult ρ)
    (normOut : ρ → CallOutput ρ) (endedAt elapsedMs : Nat) :
    (∀ (l1 l2 : List (BHook × Option Rule)) (h : BHook) (r : Option Rule) (e : Exn),
      ruleMatches r ci ctx = true → h.run ci ctx = some e →
      executeBefore ex (l1 ++ (h, r) :: l2) ci ctx =
        executeBefore ex l1 ci ctx ++
          (Event.invokeBefore h.hid ::
            Event.handlerCall ex.handlerId e ("Before hook " ++ h.name) ::
            (if ex.hasLogger then
              [Event.logError ("Before hook " ++ h.name ++ " failed: " ++ e.msg)]
            else [])) ++
          executeBefore ex l2 ci ctx) ∧
    (∀ (l1 l2 : List (AHook ρ × Option Rule)) (h : AHook ρ) (r : Option Rule) (e : Exn),
      ruleMatches r ci ctx = true → h.run ci out ctx = some e →
      executeAfter ex (l1 ++ (h, r) :: l2) ci out ctx =
        executeAfter ex l1 ci out ctx ++
          (Event.invokeAfter h.hid ::
            Event.handlerCall ex.handlerId e ("After hook " ++ h.name) ::
            (if ex.hasLogger then
              [Event.logError ("After hook " ++ h.name ++ " failed: " ++ e.msg)]
            else [])) ++
          executeAfter ex l2 ci out ctx) ∧
    (∀ (l1 l2 : List (EHook × Option Rule)) (h : EHook) (r : Option Rule) (e : Exn),
      ruleMatches r ci ctx = true → h.run ci err ctx = some e →
      executeError ex (l1 ++ (h, r) :: l2) ci err ctx =
        executeError ex l1 ci err ctx ++
          (Event.invokeError h.hid err ::
            Event.handlerCall ex.handlerId e ("Error hook " ++ h.name) ::
            (if ex.hasLogger then
              [Event.logError ("Error hook " ++ h.name ++ " failed: " ++ e.msg)]
            else [])) ++
          executeError ex l2 ci err ctx) ∧
    (∀ (l1 l2 : List (FHook ρ × Option Rule)) (h : FHook ρ) (r : Option Rule) (e : Exn),
      h.run result = some e →
      executeFinally ex (l1 ++ (h, r) :: l2) result =
        executeFinally ex l1 result ++
          (Event.invokeFinally h.hid result.error.isSome result.output.isSome ::
            Event.handlerCall ex.handlerId e ("Finally hook " ++ h.name) ::
            (if ex.hasLogger then
              [Event.logError ("Finally hook " ++ h.name ++ " failed: " ++ e.msg)]
            else [])) ++
          executeFinally ex l2 result) ∧
    (∀ (scopes : List (ScopeHookStore ρ)) (provider : Outcome ρ),
      (create ex scopes (.ok (ci, ctx)) provider normOut endedAt elapsedMs).2.1 =
        provider) := by
  refine ⟨?_, ?_, ?_, ?_, ?_⟩
  · intro l1 l2 h r e hm hr
    rw [executeBefore_append]
    simp [executeBefore, beforeHookEvents, hm, hr]
  · intro l1 l2 h r e hm hr
    rw [executeAfter_append]
    simp [executeAfter, afterHookEvents, hm, hr]
  · intro l1 l2 h r e hm hr
    rw [executeError_append]
    simp [executeError, errorHookEvents, hm, hr]
  · intro l1 l2 h r e hr
    rw [executeFinally_append]
    simp [executeFinally, finallyHookEvents, hr]
  · intro scopes provider
    cases provider <;> simp [create]

/-- C3 witness: a failing before hook is caught, forwarded to handler 7
with its descriptive label, and the following hook still runs; the same
provider error propagates with and without the failing hook. -/
theorem c3_hook_failures_are_isolated_witness :
    executeBefore wEx [(wBBoom, none), (wBOk, none)] wCi wCtx =
      [Event.invokeBefore 2,
        Event.handlerCall 7 { eid := 9, msg := "boom" } "Before hook b_boom",
        Event.invokeBefore 1] ∧
    (create wEx [wScope] (.ok (wCi, wCtx)) (.error wProviderErr) wNormOut 5 3).2.1 =
      .error wProviderErr := by
  have h := c3_hook_failures_are_isolated (ρ := Nat) wEx wCi wCtx (wNormOut 0)
    wProviderErr
    { input := wCi, output := none, context := wCtx, error := some wProviderErr,
      endedAt := 5, elapsedMs := 3 } wNormOut 5 3
  constructor
  · have hb := h.1 [] [(wBOk, none)] wBBoom none { eid := 9, msg := "boom" } rfl rfl
    simpa [executeBefore, beforeHookEvents, wEx, wBOk] using hb
  · exact h.2.2.2.2 [wScope] (.error wProviderErr)

/-- C6: per stage, the hooks a call considers are the concatenation of each
bound scope's per-stage list in scope-binding order — global scope first,
then each named scope in the order given — with each per-scope list in
registration order (the spec-modelled store appends on register) and no
deduplication (the concatenation-filter-map trace equation preserves
duplicate entries, each contributing its own invocation); the executor
emits the invocations strictly sequentially in exactly that order. -/
theorem c6_hooks_run_in_scope_then_registration_order {ρ : Type}
    (ex : HookExecutor) (g : ScopeHookStore ρ) (named : List (ScopeHookStore ρ))
    (ci : CallInput) (ctx : CallContext) (normOut : ρ → CallOutput ρ)
    (endedAt elapsedMs : Nat) :
    (∀ (s : ScopeHookStore ρ) (hs : List (BHook × Option Rule)),
      (hs.foldl (fun acc p => registerBefore acc p.1 p.2) s).beforeHooks =
        s.beforeHooks ++ hs) ∧
    (∀ (s : ScopeHookStore ρ) (hs : List (AHook ρ × Option Rule)),
      (hs.foldl (fun acc p => registerAfter acc p.1 p.2) s).afterHooks =
        s.afterHooks ++ hs) ∧
    (∀ (s : ScopeHookStore ρ) (hs : List (EHook × Option Rule)),
      (hs.foldl (fun acc p => registerError acc p.1 p.2) s).errorHooks =
        s.errorHooks ++ hs) ∧
    (∀ (s : ScopeHookStore ρ) (hs : List (FHook ρ × Option Rule)),
      (hs.foldl (fun acc p => registerFinally acc p.1 p.2) s).finallyHooks =
        s.finallyHooks ++ hs) ∧
    (∀ resp : ρ,
      (create ex (resolveScopes g named) (.ok (ci, ctx)) (.ok resp) normOut
          endedAt elapsedMs).1.filter isInvB =
        ((g.beforeHooks ++ named.flatMap ScopeHookStore.beforeHooks).filter
          (fun p => ruleMatches p.2 ci ctx)).map
            (fun p => Event.invokeBefore p.1.hid) ∧
      (create ex (resolveScopes g named) (.ok (ci, ctx)) (.ok resp) normOut
          endedAt elapsedMs).1.filter isInvA =
        ((g.afterHooks ++ named.flatMap ScopeHookStore.afterHooks).filter
          (fun p => ruleMatches p.2 ci ctx)).map
            (fun p => Event.invokeAfter p.1.hid) ∧
      (create ex (resolveScopes g named) (.ok (ci, ctx)) (.ok resp) normOut
          endedAt elapsedMs).1.filter isInvF =
        (g.finallyHooks ++ named.flatMap ScopeHookStore.finallyHooks).map
          (fun p => Event.invokeFinally p.1.hid false true)) ∧
    (∀ e : Exn,
      (create ex (resolveScopes g named) (.ok (ci, ctx)) (.error e) normOut
          endedAt elapsedMs).1.filter isInvE =
        ((g.errorHooks ++ named.flatMap ScopeHookStore.errorHooks).filter
          (fun p => ruleMatches p.2 ci ctx)).map
            (fun p => Event.invokeError p.1.hid e)) := by
  refine ⟨?_, ?_, ?_, ?_, ?_, ?_⟩
  · intro s hs
    induction hs generalizing s with
    | nil => simp
    | cons p rest ih =>
        rw [List.foldl_cons, ih]
        simp [registerBefore]
  · intro s hs
    induction hs generalizing s with
    | nil => simp
    | cons p rest ih =>
        rw [List.foldl_cons, ih]
        simp [registerAfter]
  · intro s hs
    induction hs generalizing s with
    | nil => simp
    | cons p rest ih =>
        rw [List.foldl_cons, ih]
        simp [registerError]
  · intro s hs
    induction hs generalizing s with
    | nil => simp
    | cons p rest ih =>
        rw [List.foldl_cons, ih]
        simp [registerFinally]
  · intro resp
    have hb := executeBefore_filters ex
      (g.beforeHooks ++ named.flatMap ScopeHookStore.beforeHooks) ci ctx
    have ha := executeAfter_filters ex
      (g.afterHooks ++ named.flatMap ScopeHookStore.afterHooks) ci (normOut resp) ctx
    have hf := executeFinally_filters ex
      (g.finallyHooks ++ named.flatMap ScopeHookStore.finallyHooks)
      ({ input := ci, output := some (normOut resp), context := ctx, error := none,
         endedAt := endedAt, elapsedMs := elapsedMs } : CallResult ρ)
    refine ⟨?_, ?_, ?_⟩ <;>
      simp [create, resolveScopes, List.filter_append, hb.1, hb.2.1, hb.2.2.1,
        hb.2.2.2, ha.1, ha.2.1, ha.2.2.1, ha.2.2.2, hf.1, hf.2.1, hf.2.2.1, hf.2.2.2]
  · intro e
    have hb := executeBefore_filters ex
      (g.beforeHooks ++ named.flatMap ScopeHookStore.beforeHooks) ci ctx
    have he := executeError_filters ex
      (g.errorHooks ++ named.flatMap ScopeHookStore.errorHooks) ci e ctx
    have hf := executeFinally_filters ex
      (g.finallyHooks ++ named.flatMap ScopeHookStore.finallyHooks)
      ({ input := ci, output := none, context := ctx, error := some e,
         endedAt := endedAt, elapsedMs := elapsedMs } : CallResult ρ)
    simp [create, resolveScopes, List.filter_append, hb.2.2.1, he.1, hf.2.2.2]

/-- C6 witness: spec scenario 3 — with a global scope and named scopes a
and b each holding one before hook, a single call fires global, then a,
then b; binding the same scope twice makes its hook fire twice (no
deduplication). -/
theorem c6_hooks_run_in_scope_then_registration_order_witness :
    (create wEx (resolveScopes wScopeG [wScopeA, wScopeB]) (.ok (wCi, wCtx)) (.ok 1)
        wNormOut 5 3).1.filter isInvB =
      [Event.invokeBefore 10, Event.invokeBefore 11, Event.invokeBefore 12] ∧
    (create wEx (resolveScopes wScopeG [wScopeA, wScopeA]) (.ok (wCi, wCtx)) (.ok 1)
        wNormOut 5 3).1.filter isInvB =
      [Event.invokeBefore 10, Event.invokeBefore 11, Event.invokeBefore 11] := by
  constructor
  · have h := (c6_hooks_run_in_scope_then_registration_order wEx wScopeG
      [wScopeA, wScopeB] wCi wCtx wNormOut 5 3).2.2.2.2.1 1
    exact h.1.trans (by decide)
  · have h := (c6_hooks_run_in_scope_then_registration_order wEx wScopeG
      [wScopeA, wScopeA] wCi wCtx wNormOut 5 3).2.2.2.2.1 1
    exact h.1.trans (by decide)

/-- C7: for the before, after and error stages, a hook with a rule is
invoked exactly when `rule.matches(call_input, context)` is true, a hook
with no rule is always invoked (an absent rule counts as matching), and a
hook whose rule does not match is skipped silently — the trace, including
every other hook's events and the handler and logger activity, is exactly
the trace of the list without that entry. -/
theorem c7_rule_gates_before_after_error_hooks {ρ : Type} (ex : HookExecutor)
    (ci : CallInput) (ctx : CallContext) (out : CallOutput ρ) (err : Exn) :
    (∀ rr : Rule, ruleMatches (some rr) ci ctx = rr.matchesFn ci ctx) ∧
    (ruleMatches none ci ctx = true) ∧
    (∀ (l1 l2 : List (BHook × Option Rule)) (h : BHook) (r : Option Rule),
      ruleMatches r ci ctx = false →
      executeBefore ex (l1 ++ (h, r) :: l2) ci ctx =
        executeBefore ex (l1 ++ l2) ci ctx) ∧
    (∀ hooks : List (BHook × Option Rule),
      (executeBefore ex hooks ci ctx).filter isInvB =
        (hooks.filter (fun p => ruleMatches p.2 ci ctx)).map
          (fun p => Event.invokeBefore p.1.hid)) ∧
    (∀ (l1 l2 : List (AHook ρ × Option Rule)) (h : AHook ρ) (r : Option Rule),
      ruleMatches r ci ctx = false →
      executeAfter ex (l1 ++ (h, r) :: l2) ci out ctx =
        executeAfter ex (l1 ++ l2) ci out ctx) ∧
    (∀ hooks : List (AHook ρ × Option Rule),
      (executeAfter ex hooks ci out ctx).filter isInvA =
        (hooks.filter (fun p => ruleMatches p.2 ci ctx)).map
          (fun p => Event.invokeAfter p.1.hid)) ∧
    (∀ (l1 l2 : List (EHook × Option Rule)) (h : EHook) (r : Option Rule),
      ruleMatches r ci ctx = false →
      executeError ex (l1 ++ (h, r) :: l2) ci err ctx =
        executeError ex (l1 ++ l2) ci err ctx) ∧
    (∀ hooks : List (EHook × Option Rule),
      (executeError ex hooks ci err ctx).filter isInvE =
        (hooks.filter (fun p => ruleMatches p.2 ci ctx)).map
          (fun p => Event.invokeError p.1.hid err)) := by
  refine ⟨fun rr => rfl, rfl, ?_, ?_, ?_, ?_, ?_, ?_⟩
  · intro l1 l2 h r hm
    rw [executeBefore_append, executeBefore_append]
    simp [executeBefore, hm]
  · intro hooks
    exact (executeBefore_filters ex hooks ci ctx).1
  · intro l1 l2 h r hm
    rw [executeAfter_append, executeAfter_append]
    simp [executeAfter, hm]
  · intro hooks
    exact (executeAfter_filters ex hooks ci out ctx).1
  · intro l1 l2 h r hm
    rw [executeError_append, executeError_append]
    simp [executeError, hm]
  · intro hooks
    exact (executeError_filters ex hooks ci err ctx).1

/-- C7 witness: a never-matching rule silently skips its hook (the trace
equals the trace without the entry) while a matching model rule and an
absent rule both fire. -/
theorem c7_rule_gates_before_after_error_hooks_witness :
    executeBefore wEx [(wBBoom, some wRuleNever), (wBOk, some wRuleGpt4)] wCi wCtx =
      [Event.invokeBefore 1] ∧
    ruleMatches (some wRuleGpt4) wCi wCtx = true ∧
    ruleMatches none wCi wCtx = true := by
  have h := c7_rule_gates_before_after_error_hooks (ρ := Nat) wEx wCi wCtx
    (wNormOut 0) wProviderErr
  have hskip := h.2.2.1 [] [(wBOk, some wRuleGpt4)] wBBoom (some wRuleNever) rfl
  refine ⟨?_, rfl, h.2.1⟩
  exact hskip.trans (by decide)

/-- C8: adapter selection tries Anthropic (the more structurally specific
provider) before OpenAI and the first `detect` returning true wins: an
Anthropic-detected client always resolves to the Anthropic adapter even if
OpenAI would also detect it, OpenAI is chosen only when Anthropic declined,
and when neither detects the client wrapping fails with the dedicated
unsupported-client error whose message names the client type and lists the
supported providers — never a silently defaulted adapter. -/
theorem c8_adapter_selection_priority_and_failure (c : Client) :
    (anthropicDetect c = true → detectProviderAdapter c = .ok .anthropic) ∧
    (anthropicDetect c = false → openAIDetect c = true →
      detectProviderAdapter c = .ok .openai) ∧
    (anthropicDetect c = false → openAIDetect c = false →
      detectProviderAdapter c =
        .error ("Unsupported client type: " ++ c.typeName ++ ". " ++
          "Supported providers: OpenAI, Anthropic. " ++
          "Install with: pip install hookedllm[openai] or pip install hookedllm[anthropic]")) := by
  refine ⟨?_, ?_, ?_⟩
  · intro hA
    simp [detectProviderAdapter, hA]
  · intro hA hO
    simp [detectProviderAdapter, hA, hO]
  · intro hA hO
    simp [detectProviderAdapter, hA, hO, unsupportedClientMsg]

/-- C8 witness: an Anthropic-shaped client resolves to the Anthropic
adapter, an OpenAI-only client to the OpenAI adapter, and a shapeless
client fails with the unsupported-client error naming its type. -/
theorem c8_adapter_selection_priority_and_failure_witness :
    detectProviderAdapter wClientAnthropic = .ok .anthropic ∧
    detectProviderAdapter wClientOpenAI = .ok .openai ∧
    detectProviderAdapter wClientNone =
      .error ("Unsupported client type: " ++ "dict" ++ ". " ++
        "Supported providers: OpenAI, Anthropic. " ++
        "Install with: pip install hookedllm[openai] or pip install hookedllm[anthropic]") := by
  refine ⟨?_, ?_, ?_⟩
  · exact (c8_adapter_selection_priority_and_failure wClientAnthropic).1 (by decide)
  · exact (c8_adapter_selection_priority_and_failure wClientOpenAI).2.1 (by decide)
      (by decide)
  · exact (c8_adapter_selection_priority_and_failure wClientNone).2.2 (by decide)
      (by decide)

/-- C9: both adapters' `normalize_output` are total functions (no exception
can escape the surrounding `except Exception` on the modelled error
domain), the returned `CallOutput` always carries the original response
object in `raw`, and whenever the internal extraction raises the result is
the minimally populated output — `text`, `usage` and `finish_reason` all
absent — rather than a propagating exception. -/
theorem c9_normalize_output_never_raises :
    (∀ r : OpenAIResponse,
      (normalizeOutputOpenAI r).raw = r ∧
      ∀ e, extractOpenAI r = .error e →
        normalizeOutputOpenAI r =
          { text := none, raw := r, usage := none, finishReason := none }) ∧
    (∀ r : AnthropicResponse,
      (normalizeOutputAnthropic r).raw = r ∧
      ∀ e, extractAnthropic r = .error e →
        normalizeOutputAnthropic r =
          { text := none, raw := r, usage := none, finishReason := none }) := by
  constructor
  · intro r
    constructor
    · unfold normalizeOutputOpenAI
      cases h : extractOpenAI r with
      | ok v =>
          obtain ⟨t, u, f⟩ := v
          simp
      | error e => simp
    · intro e he
      simp [normalizeOutputOpenAI, he]
  · intro r
    constructor
    · unfold normalizeOutputAnthropic
      cases h : extractAnthropic r with
      | ok v =>
          obtain ⟨t, u, f⟩ := v
          simp
      | error e => simp
    · intro e he
      simp [normalizeOutputAnthropic, he]

/-- C9 witness: responses whose usage object's `model_dump` method raises
are normalized — not raised through — to the minimal output that still
carries the original response. -/
theorem c9_normalize_output_never_raises_witness :
    normalizeOutputOpenAI wBadOResp =
      { text := none, raw := wBadOResp, usage := none, finishReason := none } ∧
    normalizeOutputAnthropic wBadAResp =
      { text := none, raw := wBadAResp, usage := none, finishReason := none } := by
  constructor
  · exact (c9_normalize_output_never_raises.1 wBadOResp).2
      { eid := 30, msg := "dump failed" } (by decide)
  · exact (c9_normalize_output_never_raises.2 wBadAResp).2
      { eid := 31, msg := "dump failed" } (by decide)

/-- C10: a client that structurally exposes both a callable
`chat.completions.create` and a callable `messages.create` is rejected by
`OpenAIAdapter.detect`, so adapter selection resolves such an ambiguous
client to the Anthropic adapter, never to the OpenAI one. -/
theorem c10_ambiguous_client_resolves_to_anthropic (c : Client)
    (hO : hasCallableChatCompletionsCreate c = true)
    (hA : hasCallableMessagesCreate c = true) :
    openAIDetect c = false ∧ detectProviderAdapter c = .ok .anthropic := by
  rcases c with ⟨tn, _ | ⟨_ | ⟨_ | ⟨cb⟩⟩⟩, _ | ⟨_ | ⟨mb⟩⟩⟩ <;>
    simp_all [hasCallableChatCompletionsCreate, hasCallableMessagesCreate,
      openAIDetect, anthropicDetect, detectProviderAdapter]

/-- C10 witness: the concrete double-shaped client is not detected as
OpenAI and resolves to the Anthropic adapter. -/
theorem c10_ambiguous_client_resolves_to_anthropic_witness :
    openAIDetect wClientBoth = false ∧
    detectProviderAdapter wClientBoth = .ok .anthropic :=
  c10_ambiguous_client_resolves_to_anthropic wClientBoth (by decide) (by decide)

end HookedLLM
